import Mathlib

set_option maxRecDepth 4000

/-!
Verification of the Avocado actuator host-side protocol library
(`avolibrary.py`): the CRC8 substitution-table checksum, command frame
assembly, response decoding, and the `Communicator` facade.

The embedding follows the source: Python strings become `String` /
`List Char`, byte values become `Nat` (with explicit bounds where the
source relies on them), the fallible ASCII encoding of `bytes(c, 'ascii')`
becomes `Option`, and the serial transport is passed explicitly (the frame
written out, and the list of lines a poll of `ser.readlines()` yields).
-/

namespace Avolibrary

/-- Embeds `STOP_BYTE = '\0'` from the source: the frame terminator. -/
def STOP_BYTE : Char := Char.ofNat 0

/-- Embeds `CRC_TABLE`, the fixed 256-entry substitution table. -/
def CRC_TABLE : List Nat := [
  0xea, 0xd4, 0x96, 0xa8, 0x12, 0x2c, 0x6e, 0x50, 0x7f, 0x41, 0x03, 0x3d,
  0x87, 0xb9, 0xfb, 0xc5, 0xa5, 0x9b, 0xd9, 0xe7, 0x5d, 0x63, 0x21, 0x1f,
  0x30, 0x0e, 0x4c, 0x72, 0xc8, 0xf6, 0xb4, 0x8a, 0x74, 0x4a, 0x08, 0x36,
  0x8c, 0xb2, 0xf0, 0xce, 0xe1, 0xdf, 0x9d, 0xa3, 0x19, 0x27, 0x65, 0x5b,
  0x3b, 0x05, 0x47, 0x79, 0xc3, 0xfd, 0xbf, 0x81, 0xae, 0x90, 0xd2, 0xec,
  0x56, 0x68, 0x2a, 0x14, 0xb3, 0x8d, 0xcf, 0xf1, 0x4b, 0x75, 0x37, 0x09,
  0x26, 0x18, 0x5a, 0x64, 0xde, 0xe0, 0xa2, 0x9c, 0xfc, 0xc2, 0x80, 0xbe,
  0x04, 0x3a, 0x78, 0x46, 0x69, 0x57, 0x15, 0x2b, 0x91, 0xaf, 0xed, 0xd3,
  0x2d, 0x13, 0x51, 0x6f, 0xd5, 0xeb, 0xa9, 0x97, 0xb8, 0x86, 0xc4, 0xfa,
  0x40, 0x7e, 0x3c, 0x02, 0x62, 0x5c, 0x1e, 0x20, 0x9a, 0xa4, 0xe6, 0xd8,
  0xf7, 0xc9, 0x8b, 0xb5, 0x0f, 0x31, 0x73, 0x4d, 0x58, 0x66, 0x24, 0x1a,
  0xa0, 0x9e, 0xdc, 0xe2, 0xcd, 0xf3, 0xb1, 0x8f, 0x35, 0x0b, 0x49, 0x77,
  0x17, 0x29, 0x6b, 0x55, 0xef, 0xd1, 0x93, 0xad, 0x82, 0xbc, 0xfe, 0xc0,
  0x7a, 0x44, 0x06, 0x38, 0xc6, 0xf8, 0xba, 0x84, 0x3e, 0x00, 0x42, 0x7c,
  0x53, 0x6d, 0x2f, 0x11, 0xab, 0x95, 0xd7, 0xe9, 0x89, 0xb7, 0xf5, 0xcb,
  0x71, 0x4f, 0x0d, 0x33, 0x1c, 0x22, 0x60, 0x5e, 0xe4, 0xda, 0x98, 0xa6,
  0x01, 0x3f, 0x7d, 0x43, 0xf9, 0xc7, 0x85, 0xbb, 0x94, 0xaa, 0xe8, 0xd6,
  0x6c, 0x52, 0x10, 0x2e, 0x4e, 0x70, 0x32, 0x0c, 0xb6, 0x88, 0xca, 0xf4,
  0xdb, 0xe5, 0xa7, 0x99, 0x23, 0x1d, 0x5f, 0x61, 0x9f, 0xa1, 0xe3, 0xdd,
  0x67, 0x59, 0x1b, 0x25, 0x0a, 0x34, 0x76, 0x48, 0xf2, 0xcc, 0x8e, 0xb0,
  0xd0, 0xee, 0xac, 0x92, 0x28, 0x16, 0x54, 0x6a, 0x45, 0x7b, 0x39, 0x07,
  0xbd, 0x83, 0xc1, 0xff]

/-- Embeds `bytes(c, 'ascii')[0]` from the body of `crc8`: the single-byte
ASCII encoding of one character.  Python raises `UnicodeEncodeError` for a
code point above 127; that failure is `none` here. -/
def asciiByte (c : Char) : Option Nat :=
  if c.toNat < 128 then some c.toNat else none

/-- One iteration of the `crc8` loop: `crc = CRC_TABLE[crc ^ b]`.  Python
list indexing raises on an out-of-bounds index; the in-bounds fact is
proved separately (see `crc8StepChecked` and the safety theorem), so the
default value of `getD` is never reached for the inputs the source uses. -/
def crc8Step (crc b : Nat) : Nat :=
  CRC_TABLE.getD (Nat.xor crc b) 0

/-- Bounds-checked variant of `crc8Step` used to state that the table
lookup never goes out of bounds: `get?` returns `none` exactly when Python
indexing would raise `IndexError`. -/
def crc8StepChecked (crc b : Nat) : Option Nat :=
  CRC_TABLE.get? (Nat.xor crc b)

/-- Embeds the `for c in msg` loop of `crc8`, threading the crc value
through the ASCII encoding of each character in order. -/
def crc8Loop (crc : Nat) : List Char → Option Nat
  | [] => some crc
  | c :: cs =>
    match asciiByte c with
    | none => none
    | some b => crc8Loop (crc8Step crc b) cs

/-- Bounds-checked variant of `crc8Loop` built on `crc8StepChecked`. -/
def crc8LoopChecked (crc : Nat) : List Char → Option Nat
  | [] => some crc
  | c :: cs =>
    match asciiByte c with
    | none => none
    | some b =>
      match crc8StepChecked crc b with
      | none => none
      | some crc2 => crc8LoopChecked crc2 cs

/-- The value `crc8` returns: Python returns the bytes object
`bytes.fromhex('00')` (the single byte 0) for an empty message and a plain
integer otherwise, so the embedding keeps the two shapes apart. -/
inductive Crc8Result where
  | bytesVal (bs : List Nat)
  | intVal (n : Nat)
  deriving DecidableEq, Repr

/-- Embeds `crc8(crc, msg)`: empty message short-circuits to `b'\x00'`;
otherwise the initial value is masked with `crc &= 0xff` and the table
recurrence is folded over the ASCII bytes of the message.  `none` models
the `UnicodeEncodeError` Python raises on a non-ASCII character. -/
def crc8 (crc : Nat) (msg : String) : Option Crc8Result :=
  if msg = "" then some (Crc8Result.bytesVal [0])
  else (crc8Loop (Nat.land crc 0xff) msg.data).map Crc8Result.intVal

/-- Python `str` rendering of a `bytes` object, as the f-string in
`_send_to_mcu` would produce for the empty-message checksum: printable
ASCII characters stand for themselves and other bytes use a `\xhh`
escape, the whole wrapped in a bytes literal. -/
def pyBytesRepr (bs : List Nat) : String :=
  let hexDigit : Nat → Char := fun n =>
    if n < 10 then Char.ofNat (48 + n) else Char.ofNat (87 + n)
  let esc : Nat → List Char := fun b =>
    if b = 92 then ['\\', '\\']
    else if b = 39 then ['\\', '\x27']
    else if b = 9 then ['\\', 't']
    else if b = 10 then ['\\', 'n']
    else if b = 13 then ['\\', 'r']
    else if 32 ≤ b ∧ b ≤ 126 then [Char.ofNat b]
    else ['\\', 'x', hexDigit (b / 16), hexDigit (b % 16)]
  "b\x27" ++ String.mk (bs.flatMap esc) ++ "\x27"

/-- Python `str` rendering of the value `crc8` returned, as interpolated
by the f-string in `_send_to_mcu`: decimal digits for the integer case,
the bytes repr for the (empty-message) bytes case. -/
def pyStrOfCrc : Crc8Result → String
  | Crc8Result.intVal n => toString n
  | Crc8Result.bytesVal bs => pyBytesRepr bs

/-- Embeds the `PosUnit` enum of `avolibrary.py`. -/
inductive PosUnit where
  | RADIANS
  | DEGREES
  deriving DecidableEq, Repr

/-- Embeds the `VelUnit` enum of `avolibrary.py`. -/
inductive VelUnit where
  | RPS
  | RPM
  deriving DecidableEq, Repr

/-- The configuration attributes `Communicator.__init__` stores on the
instance.  The `ser` serial handle is the external transport collaborator
and is passed explicitly to the operations below. -/
structure Communicator where
  port_num : String
  pos_unit : PosUnit
  vel_unit : VelUnit
  deriving DecidableEq, Repr

/-- Embeds `_convert_pos_to_radians`: identity when the configured unit is
already radians, otherwise Python calls `math.radians`.  The degree-to-
radian float arithmetic is taken as a parameter because the source never
invokes this helper on any path, so no claim depends on its value. -/
def convert_pos_to_radians (radiansFn : α → α) (pos_unit : PosUnit) (pos : α) : α :=
  if pos_unit = PosUnit.RADIANS then pos else radiansFn pos

/-- Embeds `_send_to_mcu(addr, message)`, returning the exact text written
to the transport: `f'{addr} {message}{crc}{STOP_BYTE}'` with
`crc = crc8(0, message)`.  `none` models the `UnicodeEncodeError` raised
inside `crc8` for a non-ASCII message. -/
def send_to_mcu_frame (addr : Int) (message : String) : Option String :=
  (crc8 0 message).map (fun crc =>
    toString addr ++ " " ++ message ++ pyStrOfCrc crc ++ String.singleton STOP_BYTE)

/-- The error `_read_from_mcu` can raise: `ValueError("Multiline buffer
returned")` when a poll yields more than one line. -/
inductive ReadError where
  | multiline
  deriving DecidableEq, Repr

/-- The value `_read_from_mcu` returns on success: Python returns the
decoded string when a line is present and the empty list `[]` (a non-string
sentinel) when the receive buffer was empty. -/
inductive ReadResult where
  | text (s : String)
  | noData
  deriving DecidableEq, Repr

/-- Embeds `line.decode("utf-8").replace(STOP_BYTE, ' ')`: the single-
character replace substitutes a space for every occurrence of the
terminator character in the decoded line. -/
def replaceStop (line : List Char) : List Char :=
  line.map (fun c => if c = STOP_BYTE then ' ' else c)

/-- Embeds `_read_from_mcu`.  The argument is the list of lines one poll
of `self.ser.readlines()` yielded (each line the decoded text of its raw
bytes, terminator characters included); the transport producing them is
the external collaborator.  More than one line raises; one line is cleaned
by `replaceStop`; no line returns the `[]` sentinel. -/
def read_from_mcu (lines : List (List Char)) : Except ReadError ReadResult :=
  if lines.length > 1 then Except.error ReadError.multiline
  else
    match lines with
    | [] => Except.ok ReadResult.noData
    | l :: _ => Except.ok (ReadResult.text (String.mk (replaceStop l)))

/-- The outcome of one `Communicator` round-trip operation: the state of
the communicator afterwards, the frame written to the transport (if the
encoding succeeded), and the decoded response. -/
def OpResult := Communicator × Option String × Except ReadError ReadResult

/-- Embeds `rotate_to_position(addr, pos)`: sends `f'set pos {pos}'` and
reads one response.  `posText` is Python's `str` rendering of the float
argument; the method reads `self.pos_unit` on no path and assigns no
attribute, so the communicator comes back unchanged. -/
def rotate_to_position (c : Communicator) (addr : Int) (posText : String)
    (lines : List (List Char)) : OpResult :=
  (c, send_to_mcu_frame addr ("set pos " ++ posText), read_from_mcu lines)

/-- Embeds `rotate_at_velocity(addr, vel)`: sends `f'set vel {vel}'` and
reads one response. -/
def rotate_at_velocity (c : Communicator) (addr : Int) (velText : String)
    (lines : List (List Char)) : OpResult :=
  (c, send_to_mcu_frame addr ("set vel " ++ velText), read_from_mcu lines)

/-- Embeds `rotate_at_current(addr, cur)`: sends `f'set cur {cur}'` and
reads one response. -/
def rotate_at_current (c : Communicator) (addr : Int) (curText : String)
    (lines : List (List Char)) : OpResult :=
  (c, send_to_mcu_frame addr ("set cur " ++ curText), read_from_mcu lines)

/-- Embeds `get_position(addr)`: sends `'get pos'` and reads one
response. -/
def get_position (c : Communicator) (addr : Int)
    (lines : List (List Char)) : OpResult :=
  (c, send_to_mcu_frame addr "get pos", read_from_mcu lines)

/-- Embeds `get_velocity(addr)`: sends `'get vel'` and reads one
response. -/
def get_velocity (c : Communicator) (addr : Int)
    (lines : List (List Char)) : OpResult :=
  (c, send_to_mcu_frame addr "get vel", read_from_mcu lines)

/-- Embeds `get_current(addr)`: sends `'get cur'` and reads one
response. -/
def get_current (c : Communicator) (addr : Int)
    (lines : List (List Char)) : OpResult :=
  (c, send_to_mcu_frame addr "get cur", read_from_mcu lines)

/-- Embeds `get_temperature(addr)`: sends `'get tmp'` and reads one
response. -/
def get_temperature (c : Communicator) (addr : Int)
    (lines : List (List Char)) : OpResult :=
  (c, send_to_mcu_frame addr "get tmp", read_from_mcu lines)

/-- Modelled from the spec (for the refinement claim about the checksum
recurrence): "for each byte `b` of the message in order:
`crc := TABLE[crc XOR b]`, starting from `crc := initial`; final `crc` is
the result". -/
def specChecksumRec (crc : Nat) : List Nat → Nat
  | [] => crc
  | b :: bs => specChecksumRec (crc8Step crc b) bs

/-- Modelled from the spec (for the one-line decode claim as stated):
"strip the terminator, replace any residual terminator bytes inside the
line with a space" — drop one trailing terminator, then space out the
rest. -/
def specDecodeOneLine (line : List Char) : List Char :=
  let stripped := if line.getLast? = some STOP_BYTE then line.dropLast else line
  stripped.map (fun c => if c = STOP_BYTE then ' ' else c)

/-! Helper lemmas shared by the claim theorems. -/

theorem CRC_TABLE_length : CRC_TABLE.length = 256 := rfl

theorem CRC_TABLE_entries_lt : ∀ n ∈ CRC_TABLE, n < 256 := by decide

theorem land_255_of_lt {n : Nat} (h : n < 256) : Nat.land n 255 = n := by
  have hmod : n &&& (2 ^ 8 - 1) = n % 2 ^ 8 := Nat.and_pow_two_sub_one_eq_mod n 8
  have : Nat.land n 255 = n % 256 := hmod
  omega

theorem xor_lt_256 {a b : Nat} (ha : a < 256) (hb : b < 256) :
    Nat.xor a b < 256 := by
  have h : a ^^^ b < 2 ^ 8 := Nat.xor_lt_two_pow (by omega) (by omega)
  have he : Nat.xor a b = a ^^^ b := rfl
  omega

theorem crc8Step_mem {crc b : Nat} (hc : crc < 256) (hb : b < 256) :
    crc8Step crc b ∈ CRC_TABLE := by
  have hidx : Nat.xor crc b < CRC_TABLE.length := by
    rw [CRC_TABLE_length]; exact xor_lt_256 hc hb
  unfold crc8Step
  rw [List.getD_eq_getElem CRC_TABLE 0 hidx]
  exact List.getElem_mem hidx

theorem crc8Step_lt {crc b : Nat} (hc : crc < 256) (hb : b < 256) :
    crc8Step crc b < 256 :=
  CRC_TABLE_entries_lt _ (crc8Step_mem hc hb)

theorem crc8StepChecked_eq {crc b : Nat} (hc : crc < 256) (hb : b < 256) :
    crc8StepChecked crc b = some (crc8Step crc b) := by
  have hidx : Nat.xor crc b < CRC_TABLE.length := by
    rw [CRC_TABLE_length]; exact xor_lt_256 hc hb
  unfold crc8StepChecked crc8Step
  rw [List.getD_eq_getElem CRC_TABLE 0 hidx, List.get?_eq_getElem?,
    List.getElem?_eq_getElem hidx]

theorem crc8Loop_eq_spec (cs : List Char) (crc : Nat)
    (hascii : ∀ c ∈ cs, c.toNat < 128) :
    crc8Loop crc cs = some (specChecksumRec crc (cs.map Char.toNat)) := by
  induction cs generalizing crc with
  | nil => rfl
  | cons c cs ih =>
    have hc : c.toNat < 128 := hascii c (List.mem_cons_self c cs)
    have htail : ∀ x ∈ cs, x.toNat < 128 := fun x hx =>
      hascii x (List.mem_cons_of_mem c hx)
    simp only [crc8Loop, asciiByte, if_pos hc, List.map_cons, specChecksumRec]
    exact ih _ htail

theorem crc8LoopChecked_eq (cs : List Char) (crc : Nat) (hc : crc < 256)
    (hascii : ∀ c ∈ cs, c.toNat < 128) :
    crc8LoopChecked crc cs = crc8Loop crc cs := by
  induction cs generalizing crc with
  | nil => rfl
  | cons c cs ih =>
    have hb : c.toNat < 128 := hascii c (List.mem_cons_self c cs)
    have htail : ∀ x ∈ cs, x.toNat < 128 := fun x hx =>
      hascii x (List.mem_cons_of_mem c hx)
    have hb256 : c.toNat < 256 := by omega
    simp only [crc8LoopChecked, crc8Loop, asciiByte, if_pos hb,
      crc8StepChecked_eq hc hb256]
    exact ih _ (crc8Step_lt hc hb256) htail

theorem crc8Loop_mem (cs : List Char) (crc : Nat) (hne : cs ≠ [])
    (hc : crc < 256) (hascii : ∀ c ∈ cs, c.toNat < 128) :
    ∃ n, crc8Loop crc cs = some n ∧ n ∈ CRC_TABLE := by
  induction cs generalizing crc with
  | nil => exact absurd rfl hne
  | cons c cs ih =>
    have hb : c.toNat < 128 := hascii c (List.mem_cons_self c cs)
    have htail : ∀ x ∈ cs, x.toNat < 128 := fun x hx =>
      hascii x (List.mem_cons_of_mem c hx)
    have hb256 : c.toNat < 256 := by omega
    simp only [crc8Loop, asciiByte, if_pos hb]
    cases cs with
    | nil =>
      exact ⟨crc8Step crc c.toNat, rfl, crc8Step_mem hc hb256⟩
    | cons d ds =>
      exact ih _ (List.cons_ne_nil d ds) (crc8Step_lt hc hb256) htail

theorem read_from_mcu_singleton (l : List Char) :
    read_from_mcu [l] =
      Except.ok (ReadResult.text (String.mk (replaceStop l))) := rfl

theorem replaceStop_no_stop (l : List Char) : STOP_BYTE ∉ replaceStop l := by
  intro hmem
  rcases List.mem_map.mp hmem with ⟨c, _, hc⟩
  by_cases h : c = STOP_BYTE
  · rw [if_pos h] at hc
    exact absurd hc (by decide)
  · rw [if_neg h] at hc
    exact h (hc ▸ rfl)

/-- C1: for every actuator address and non-empty ASCII command body, the
frame written by `_send_to_mcu` is exactly the address in decimal, one
space, the body, the decimal digits of `crc8(0, body)`, and the single
terminator character last; and `rotate_at_velocity(1, 50.0)` under a
RADIANS/RPS configuration writes `"1 set vel 50.0" ++ checksum digits ++
terminator`. -/
theorem c1_frame_assembly :
    (∀ (addr : Int) (body : String), body ≠ "" →
      (∀ c ∈ body.data, c.toNat < 128) →
      ∃ n : Nat, crc8 0 body = some (Crc8Result.intVal n) ∧
        send_to_mcu_frame addr body =
          some (toString addr ++ " " ++ body ++ toString n ++
            String.singleton STOP_BYTE)) ∧
    (∀ pn : String,
      ∃ n : Nat, crc8 0 "set vel 50.0" = some (Crc8Result.intVal n) ∧
        (rotate_at_velocity ⟨pn, PosUnit.RADIANS, VelUnit.RPS⟩ 1 "50.0"
          []).2.1 =
          some ("1 set vel 50.0" ++ toString n ++
            String.singleton STOP_BYTE)) := by
  constructor
  · intro addr body hne hascii
    have hdata : body.data ≠ [] := fun h => hne (congrArg String.mk h)
    obtain ⟨n, hn, -⟩ :=
      crc8Loop_mem body.data 0 hdata (by omega) hascii
    have hcrc : crc8 0 body = some (Crc8Result.intVal n) := by
      unfold crc8
      rw [if_neg hne]
      have h0 : Nat.land 0 0xff = 0 := rfl
      rw [h0, hn]
      rfl
    refine ⟨n, hcrc, ?_⟩
    unfold send_to_mcu_frame
    rw [hcrc]
    rfl
  · intro pn
    refine ⟨104, by decide, ?_⟩
    have h : send_to_mcu_frame 1 ("set vel " ++ "50.0") =
        some ("1 set vel 50.0" ++ toString (104 : Nat) ++
          String.singleton STOP_BYTE) := by decide
    exact h

/-- Witness for C1 at address `1` and body `"set vel 50.0"`. -/
theorem c1_frame_assembly_witness :
    ∃ n : Nat, crc8 0 "set vel 50.0" = some (Crc8Result.intVal n) ∧
      send_to_mcu_frame 1 "set vel 50.0" =
        some (toString (1 : Int) ++ " " ++ "set vel 50.0" ++ toString n ++
          String.singleton STOP_BYTE) :=
  c1_frame_assembly.1 1 "set vel 50.0" (by decide) (by decide)

/-- C2: for every byte-range initial value and non-empty ASCII message,
`crc8` computes exactly the spec's recurrence `crc := TABLE[crc XOR b]`
over the bytes of the message in order, starting from `crc := initial`,
and returns the final value. -/
theorem c2_checksum_recurrence (initial : Nat) (msg : String)
    (hinit : initial < 256) (hne : msg ≠ "")
    (hascii : ∀ c ∈ msg.data, c.toNat < 128) :
    crc8 initial msg =
      some (Crc8Result.intVal
        (specChecksumRec initial (msg.data.map Char.toNat))) := by
  unfold crc8
  rw [if_neg hne]
  have h255 : Nat.land initial 0xff = initial := land_255_of_lt hinit
  rw [h255, crc8Loop_eq_spec msg.data initial hascii]
  rfl

/-- Witness for C2 at initial value `0` and message `"hello"`. -/
theorem c2_checksum_recurrence_witness :
    crc8 0 "hello" =
      some (Crc8Result.intVal
        (specChecksumRec 0 (("hello" : String).data.map Char.toNat))) :=
  c2_checksum_recurrence 0 "hello" (by decide) (by decide) (by decide)

/-- C3: for every initial value, `crc8` on the empty message returns the
single zero byte (Python's `bytes.fromhex('00')`), so the result value is
0 and the initial value is irrelevant. -/
theorem c3_empty_checksum (initial : Nat) :
    crc8 initial "" = some (Crc8Result.bytesVal [0]) := rfl

/-- C4 (code bug): `rotate_to_position` and `rotate_at_velocity` never
consult the configured unit — the frame they write is identical for every
`pos_unit`/`vel_unit`, and under a DEGREES configuration the wire carries
the raw argument `180.0` rather than its radian conversion, because the
source never calls `_convert_pos_to_radians`. -/
theorem c4_no_unit_conversion :
    (∀ (u1 u2 : PosUnit) (v1 v2 : VelUnit) (pn : String) (addr : Int)
        (argText : String) (lines : List (List Char)),
      (rotate_to_position ⟨pn, u1, v1⟩ addr argText lines).2.1 =
        (rotate_to_position ⟨pn, u2, v2⟩ addr argText lines).2.1 ∧
      (rotate_at_velocity ⟨pn, u1, v1⟩ addr argText lines).2.1 =
        (rotate_at_velocity ⟨pn, u2, v2⟩ addr argText lines).2.1) ∧
    (rotate_to_position ⟨"COM5", PosUnit.DEGREES, VelUnit.RPS⟩ 1 "180.0"
        []).2.1 =
      some ("1 set pos 180.0" ++ toString (177 : Nat) ++
        String.singleton STOP_BYTE) := by
  refine ⟨fun u1 u2 v1 v2 pn addr argText lines => ⟨rfl, rfl⟩, ?_⟩
  have h : send_to_mcu_frame 1 ("set pos " ++ "180.0") =
      some ("1 set pos 180.0" ++ toString (177 : Nat) ++
        String.singleton STOP_BYTE) := by decide
  exact h

/-- C5: whenever a single poll yields more than one line,
`_read_from_mcu` raises the multiline error and returns none of the
lines; in particular it does so for exactly two lines. -/
theorem c5_multiline_error :
    (∀ lines : List (List Char), 1 < lines.length →
      read_from_mcu lines = Except.error ReadError.multiline) ∧
    (∀ l1 l2 : List Char,
      read_from_mcu [l1, l2] = Except.error ReadError.multiline) := by
  constructor
  · intro lines h
    unfold read_from_mcu
    rw [if_pos h]
  · intro l1 l2
    rfl

/-- Witness for C5 on the two-line poll `["ok\0", "ok\0"]`. -/
theorem c5_multiline_error_witness :
    read_from_mcu [['o', 'k', STOP_BYTE], ['o', 'k', STOP_BYTE]] =
      Except.error ReadError.multiline :=
  c5_multiline_error.1 [['o', 'k', STOP_BYTE], ['o', 'k', STOP_BYTE]]
    (by decide)

/-- C6 counterexample: on the single terminated line `"ok\0"` the code
returns `"ok "` — the trailing terminator is replaced by a space, not
stripped — so the output differs from the claim's
strip-then-replace-inner result `"ok"`. -/
theorem c6_one_line_counterexample :
    specDecodeOneLine ['o', 'k', STOP_BYTE] = ['o', 'k'] ∧
    read_from_mcu [['o', 'k', STOP_BYTE]] =
      Except.ok (ReadResult.text "ok ") ∧
    read_from_mcu [['o', 'k', STOP_BYTE]] ≠
      Except.ok (ReadResult.text
        (String.mk (specDecodeOneLine ['o', 'k', STOP_BYTE]))) := by
  refine ⟨by decide, rfl, ?_⟩
  intro h
  have h1 : ReadResult.text "ok " =
      ReadResult.text (String.mk (specDecodeOneLine ['o', 'k', STOP_BYTE])) :=
    Except.ok.inj h
  exact absurd (ReadResult.text.inj h1) (by decide)

/-- C6 (amended): for every raw input consisting of exactly one line,
`_read_from_mcu` returns that line with every terminator character —
the trailing one included — replaced by a space, decoded as text. -/
theorem c6_one_line_decode (l : List Char) :
    read_from_mcu [l] =
      Except.ok (ReadResult.text (String.mk (replaceStop l))) :=
  read_from_mcu_singleton l

/-- C7: a poll with zero lines returns the explicit no-data sentinel
(Python's `[]`), which is distinct from every decoded string, and never
an error. -/
theorem c7_empty_poll :
    read_from_mcu [] = Except.ok ReadResult.noData ∧
    (∀ s : String, ReadResult.noData ≠ ReadResult.text s) ∧
    (∀ e : ReadError, read_from_mcu [] ≠ Except.error e) := by
  refine ⟨rfl, fun s h => ReadResult.noConfusion h, fun e h =>
    Except.noConfusion h⟩

/-- C8: for a byte-range initial value and an all-ASCII message the
checksum computation is total — the bounds-checked table lookups all
succeed (no index leaves `[0, 255]`), and for a non-empty message the
result is an entry of the 256-entry table, hence below 256. -/
theorem c8_checksum_total (initial : Nat) (msg : String)
    (hinit : initial < 256) (hascii : ∀ c ∈ msg.data, c.toNat < 128)
    (hne : msg ≠ "") :
    crc8LoopChecked initial msg.data = crc8Loop initial msg.data ∧
    ∃ n : Nat, crc8 initial msg = some (Crc8Result.intVal n) ∧
      n ∈ CRC_TABLE ∧ n < 256 := by
  refine ⟨crc8LoopChecked_eq msg.data initial hinit hascii, ?_⟩
  have hdata : msg.data ≠ [] := fun h => hne (congrArg String.mk h)
  obtain ⟨n, hn, hmem⟩ := crc8Loop_mem msg.data initial hdata hinit hascii
  refine ⟨n, ?_, hmem, CRC_TABLE_entries_lt n hmem⟩
  unfold crc8
  rw [if_neg hne, land_255_of_lt hinit, hn]
  rfl

/-- Witness for C8 at initial value `255` and message `"get tmp"`. -/
theorem c8_checksum_total_witness :
    crc8LoopChecked 255 ("get tmp" : String).data =
      crc8Loop 255 ("get tmp" : String).data ∧
    ∃ n : Nat, crc8 255 "get tmp" = some (Crc8Result.intVal n) ∧
      n ∈ CRC_TABLE ∧ n < 256 :=
  c8_checksum_total 255 "get tmp" (by decide) (by decide) (by decide)

/-- C9: every `Communicator` operation returns the communicator with its
`port_num`, `pos_unit` and `vel_unit` attributes unchanged — no method
assigns to any attribute. -/
theorem c9_config_unchanged (c : Communicator) (addr : Int)
    (argText : String) (lines : List (List Char)) :
    (rotate_to_position c addr argText lines).1 = c ∧
    (rotate_at_velocity c addr argText lines).1 = c ∧
    (rotate_at_current c addr argText lines).1 = c ∧
    (get_position c addr lines).1 = c ∧
    (get_velocity c addr lines).1 = c ∧
    (get_current c addr lines).1 = c ∧
    (get_temperature c addr lines).1 = c :=
  ⟨rfl, rfl, rfl, rfl, rfl, rfl, rfl⟩

/-- C10: when a one-line poll decodes to a text result, the returned text
never contains the terminator character — every occurrence in the line,
the trailing one included, is gone from the result. -/
theorem c10_no_terminator_in_result (l : List Char) (t : String)
    (h : read_from_mcu [l] = Except.ok (ReadResult.text t)) :
    STOP_BYTE ∉ t.data := by
  have ht : ReadResult.text (String.mk (replaceStop l)) = ReadResult.text t := by
    have h2 := (read_from_mcu_singleton l).symm.trans h
    exact Except.ok.inj h2
  have hts : String.mk (replaceStop l) = t := ReadResult.text.inj ht
  rw [← hts]
  exact replaceStop_no_stop l

/-- Witness for C10 on the line `"ok\0"`, whose decode is `"ok "`. -/
theorem c10_no_terminator_in_result_witness :
    STOP_BYTE ∉ ("ok " : String).data :=
  c10_no_terminator_in_result ['o', 'k', STOP_BYTE] "ok " rfl

end Avolibrary
